import Mathlib

/- Shallow embedding of the HSL ticket optimizer pricing engine
   (src/services/PriceService.ts) and its TTL cache (src/utils/CacheManager.ts).
   JavaScript numbers are modelled as rationals; Math.round is round-half-up
   toward positive infinity, which is Mathlib round (⌊x + 1/2⌋); Math.ceil is
   Int.ceil.  Thrown errors become Except values.  Calculation strings built by
   template interpolation are modelled as inductive tags that keep the
   interpolated values; fixed sentinel strings keep their identity as tags. -/

namespace HSL

/-- Money rounding to two decimals: JavaScript Math.round(x * 100) / 100. -/
def round2 (x : ℚ) : ℚ := ((round (x * 100) : ℤ) : ℚ) / 100

/-- Shared constant WEEKS_PER_MONTH = 4.33 from PriceService. -/
def WEEKS_PER_MONTH : ℚ := 433 / 100

/-- Error taxonomy from src/models/types.ts (ErrorType). -/
inductive ErrorType where
  | network
  | cors
  | invalid_response
  | rate_limit
deriving DecidableEq

/-- APIError from src/models/types.ts: message, kind tag, optional wrapped
    cause (the cause is represented by its message text). -/
structure APIError where
  message : String
  type : ErrorType
  originalError : Option String
deriving DecidableEq

/-- A thrown JS error: a plain Error (input validation) or an APIError carrying
    the network taxonomy kind. -/
inductive AppError where
  | plainError (message : String)
  | apiError (e : APIError)
deriving DecidableEq

/-- Calculation string of calculateSingleTicketCost, as a tag keeping the
    interpolated values; noTrips is the fixed sentinel "No trips - no cost". -/
inductive SingleCalc where
  | noTrips
  | formula (tripsPerWeek tripsPerMonth fare monthlyCost : ℚ)
deriving DecidableEq

/-- Result record of calculateSingleTicketCost. -/
structure SingleCostResult where
  monthlyCost : ℚ
  annualCost : ℚ
  calculation : SingleCalc
  tripsPerMonth : ℤ
  totalTickets : ℤ
deriving DecidableEq

/-- PriceService.calculateSingleTicketCost (PriceService.ts, lines 934-1006).
    Validates inputs, short-circuits zero trips to the sentinel, otherwise
    ceils the monthly and yearly trip counts and rounds the costs. -/
def calculateSingleTicketCost (tripsPerWeek singleTicketPrice : ℚ) :
    Except AppError SingleCostResult :=
  if tripsPerWeek < 0 then
    .error (.plainError "Trips per week must be greater than or equal to 0")
  else if singleTicketPrice ≤ 0 then
    .error (.plainError "Single ticket price must be greater than 0")
  else if tripsPerWeek = 0 then
    .ok ⟨0, 0, .noTrips, 0, 0⟩
  else
    let tripsPerMonth : ℤ := ⌈tripsPerWeek * WEEKS_PER_MONTH⌉
    let tripsPerYear : ℤ := ⌈tripsPerWeek * 52⌉
    let totalTickets : ℤ := tripsPerMonth
    let monthlyCost : ℚ := round2 ((totalTickets : ℚ) * singleTicketPrice)
    let annualCost : ℚ := round2 ((tripsPerYear : ℚ) * singleTicketPrice)
    .ok ⟨monthlyCost, annualCost,
      .formula tripsPerWeek (tripsPerMonth : ℚ) singleTicketPrice monthlyCost,
      tripsPerMonth, totalTickets⟩

/-- A series (multi-ride) ticket tier: price, journeys, validityDays. -/
structure SeriesTicket where
  price : ℚ
  journeys : ℚ
  validityDays : ℚ
deriving DecidableEq

/-- Calculation string of calculateSeriesTicketCost as a tag. -/
inductive SeriesCalc where
  | noTrips
  | packs (ticketsNeeded journeys validityDays effectiveUsable monthlyCost : ℚ)
deriving DecidableEq

/-- Result record of calculateSeriesTicketCost; wasteWarning stays an optional
    string since its text is fixed. -/
structure SeriesCostResult where
  monthlyCost : ℚ
  annualCost : ℚ
  calculation : SeriesCalc
  ticketsNeeded : ℤ
  journeysWasted : ℚ
  wasteWarning : Option String
deriving DecidableEq

/-- PriceService.calculateSeriesTicketCost (PriceService.ts, lines 1012-1111). -/
def calculateSeriesTicketCost (tripsPerWeek : ℚ) (seriesTicket : SeriesTicket) :
    Except AppError SeriesCostResult :=
  if tripsPerWeek < 0 then
    .error (.plainError "Trips per week must be greater than or equal to 0")
  else if seriesTicket.price ≤ 0 ∨ seriesTicket.journeys ≤ 0 ∨ seriesTicket.validityDays ≤ 0 then
    .error (.plainError "Invalid series ticket configuration")
  else
    let tripsPerMonth : ℤ := ⌈tripsPerWeek * WEEKS_PER_MONTH⌉
    let tripsPerYear : ℤ := ⌈tripsPerWeek * 52⌉
    if tripsPerMonth = 0 then
      .ok ⟨0, 0, .noTrips, 0, 0, none⟩
    else
      let weeksPerValidity : ℚ := seriesTicket.validityDays / 7
      let usableJourneysPerPack : ℚ :=
        min seriesTicket.journeys ((⌈tripsPerWeek * weeksPerValidity⌉ : ℤ) : ℚ)
      let effectiveUsable : ℚ := max 1 usableJourneysPerPack
      let ticketsNeeded : ℤ := ⌈(tripsPerMonth : ℚ) / effectiveUsable⌉
      let totalJourneysCapacity : ℚ := (ticketsNeeded : ℚ) * seriesTicket.journeys
      let totalUsableJourneys : ℚ := (ticketsNeeded : ℚ) * effectiveUsable
      let journeysWasted : ℚ := max 0 (totalJourneysCapacity - totalUsableJourneys)
      let monthlyCost : ℚ := round2 ((ticketsNeeded : ℚ) * seriesTicket.price)
      let annualTicketsNeeded : ℤ := ⌈(tripsPerYear : ℚ) / effectiveUsable⌉
      let annualCost : ℚ := round2 ((annualTicketsNeeded : ℚ) * seriesTicket.price)
      let wasteFrac : ℚ :=
        if totalJourneysCapacity = 0 then 0 else journeysWasted / totalJourneysCapacity
      let wasteWarning : Option String :=
        if 1 / 5 ≤ wasteFrac then
          some "Significant waste expected (≥20%) due to validity limits."
        else none
      .ok ⟨monthlyCost, annualCost,
        .packs (ticketsNeeded : ℚ) seriesTicket.journeys seriesTicket.validityDays
          effectiveUsable monthlyCost,
        ticketsNeeded, journeysWasted, wasteWarning⟩

/-- Calculation string of the fixed-price cost functions as a tag:
    fixedMonthly is the literal "Fixed €X/month", seasonThirtyDay is
    "30-day ticket: €X/month", discounted is
    "Monthly (€X) with Y% discount = €Z/month". -/
inductive FixedCalc where
  | fixedMonthly (monthlyCost : ℚ)
  | seasonThirtyDay (monthlyCost : ℚ)
  | discounted (monthlyPrice discountRate monthlyCost : ℚ)
deriving DecidableEq

/-- Result record of the fixed-price cost functions. -/
structure FixedCostResult where
  monthlyCost : ℚ
  annualCost : ℚ
  calculation : FixedCalc
deriving DecidableEq

/-- PriceService.calculateSeasonTicketCost (PriceService.ts, lines 1190-1212). -/
def calculateSeasonTicketCost (seasonPrice : ℚ) : Except AppError FixedCostResult :=
  if seasonPrice ≤ 0 then
    .error (.plainError "Season ticket price must be greater than 0")
  else
    .ok ⟨round2 seasonPrice, round2 (seasonPrice * 12), .seasonThirtyDay (round2 seasonPrice)⟩

/-- PriceService.calculateContinuousMonthlyTicketCost (PriceService.ts, lines
    1143-1185).  The JS default discountRatio = 0.05 is passed explicitly by
    every caller of this embedding.  The JS guard
    continuousMonthlyPrice && continuousMonthlyPrice > 0 is equivalent to the
    value being present and strictly positive. -/
def calculateContinuousMonthlyTicketCost (monthlyPrice : ℚ)
    (continuousMonthlyPrice : Option ℚ) (discountRate : ℚ) :
    Except AppError FixedCostResult :=
  if monthlyPrice ≤ 0 then
    .error (.plainError "Monthly ticket price must be greater than 0")
  else
    let useExplicit : Bool :=
      match continuousMonthlyPrice with
      | some c => decide (0 < c)
      | none => false
    let effective : ℚ :=
      if useExplicit then continuousMonthlyPrice.getD 0
      else round2 (monthlyPrice * (1 - discountRate))
    let monthlyCost : ℚ := round2 effective
    let annualCost : ℚ := round2 (monthlyCost * 12)
    let calcTag : FixedCalc :=
      if useExplicit then .fixedMonthly monthlyCost
      else .discounted monthlyPrice discountRate monthlyCost
    .ok ⟨monthlyCost, annualCost, calcTag⟩

/-- Option keys ranked by findOptimalOption. -/
inductive OptionKey where
  | single
  | series10
  | series20
  | season
  | continuousMonthly
deriving DecidableEq

/-- A key together with its monthly cost, the element type of the options array
    that findOptimalOption sorts. -/
structure KeyCost where
  key : OptionKey
  cost : ℚ
deriving DecidableEq

/-- The prices argument of findOptimalOption (series tiers and the continuous
    fare optional). -/
structure PricesInput where
  single : ℚ
  series10 : Option SeriesTicket
  series20 : Option SeriesTicket
  season : ℚ
  continuousMonthly : Option ℚ
deriving DecidableEq

/-- Return record of findOptimalOption. -/
structure OptimalResult where
  single : SingleCostResult
  series10 : Option SeriesCostResult
  series20 : Option SeriesCostResult
  season : FixedCostResult
  continuousMonthly : FixedCostResult
  optimal : OptionKey
deriving DecidableEq

/-- Insert into a cost-sorted list, keeping the inserted (earlier) element in
    front of elements of equal cost, as a stable sort does. -/
def insertByCost (x : KeyCost) : List KeyCost → List KeyCost
  | [] => [x]
  | y :: ys => if x.cost ≤ y.cost then x :: y :: ys else y :: insertByCost x ys

/-- Stable sort by ascending cost, modelling JS options.sort((a, b) => a.cost -
    b.cost); ECMAScript guarantees Array.prototype.sort is stable. -/
def stableSortByCost : List KeyCost → List KeyCost
  | [] => []
  | x :: xs => insertByCost x (stableSortByCost xs)

/-- The options array exactly as findOptimalOption pushes it: single, season,
    continuousMonthly, then series10 and series20 when present. -/
def optionsList (single : SingleCostResult) (season continuousMonthly : FixedCostResult)
    (series10 series20 : Option SeriesCostResult) : List KeyCost :=
  ([⟨.single, single.monthlyCost⟩, ⟨.season, season.monthlyCost⟩,
    ⟨.continuousMonthly, continuousMonthly.monthlyCost⟩]
    ++ (match series10 with
        | some s => [⟨.series10, s.monthlyCost⟩]
        | none => [])
    ++ (match series20 with
        | some s => [⟨.series20, s.monthlyCost⟩]
        | none => []))

/-- Evaluate an optional series tier the way findOptimalOption does: absent
    tiers stay absent, a thrown error propagates. -/
def calcOptionalSeries (tripsPerWeek : ℚ) :
    Option SeriesTicket → Except AppError (Option SeriesCostResult)
  | none => .ok none
  | some tier => (calculateSeriesTicketCost tripsPerWeek tier).map some

/-- PriceService.findOptimalOption (PriceService.ts, lines 1217-1316): computes
    each available option, sorts {key, cost} pairs by monthly cost with the
    stable sort, and takes the head key (falling back to single on an empty
    list, which cannot happen since single is always pushed). -/
def findOptimalOption (tripsPerWeek : ℚ) (prices : PricesInput) :
    Except AppError OptimalResult :=
  match calculateSingleTicketCost tripsPerWeek prices.single with
  | .error e => .error e
  | .ok single =>
    match calculateSeasonTicketCost prices.season with
    | .error e => .error e
    | .ok season =>
      match calculateContinuousMonthlyTicketCost prices.season prices.continuousMonthly (5 / 100) with
      | .error e => .error e
      | .ok continuousMonthly =>
        match calcOptionalSeries tripsPerWeek prices.series10 with
        | .error e => .error e
        | .ok series10 =>
          match calcOptionalSeries tripsPerWeek prices.series20 with
          | .error e => .error e
          | .ok series20 =>
            let options := optionsList single season continuousMonthly series10 series20
            let sorted := stableSortByCost options
            let optimal := (sorted.head?.map KeyCost.key).getD .single
            .ok ⟨single, series10, series20, season, continuousMonthly, optimal⟩

/-- Modelled from the spec: the head of a stable ascending sort is the first
    element of the original list attaining the minimal cost.  Used as the
    spec-side selection rule to compare against findOptimalOption. -/
def firstMin : List KeyCost → Option KeyCost
  | [] => none
  | x :: xs =>
    match firstMin xs with
    | none => some x
    | some m => if x.cost ≤ m.cost then some x else some m

/-- Reasoning string of getTicketRecommendation as a tag; noTrips is the fixed
    "No trips planned" sentinel. -/
inductive RecReason where
  | noTrips
  | singleCheaper (singleMonthly flatMonthly : ℚ)
  | monthlySaves (savings : ℚ) (breakEvenTrips : ℤ)
deriving DecidableEq

/-- Return record of getTicketRecommendation. -/
structure Recommendation where
  recommendation : String
  reasoning : RecReason
  singleCost : ℚ
  monthlyCost : ℚ
  savings : ℚ
  breakEvenTrips : ℤ
deriving DecidableEq

/-- PriceService.getTicketRecommendation (PriceService.ts, lines 1325-1383):
    the two-way single vs flat-rate comparison; savings is
    max(0, singleMonthly - flatMonthly) in every branch. -/
def getTicketRecommendation (tripsPerWeek singleTicketPrice monthlyTicketPrice : ℚ) :
    Except AppError Recommendation :=
  match calculateSingleTicketCost tripsPerWeek singleTicketPrice with
  | .error e => .error e
  | .ok singleTicketCost =>
    let monthlyCost := monthlyTicketPrice
    let breakEvenTrips : ℤ := ⌈monthlyCost / singleTicketPrice⌉
    let savings : ℚ := max 0 (singleTicketCost.monthlyCost - monthlyCost)
    if tripsPerWeek = 0 then
      .ok ⟨"single", .noTrips, singleTicketCost.monthlyCost, monthlyCost, savings,
        breakEvenTrips⟩
    else if singleTicketCost.monthlyCost ≤ monthlyCost then
      .ok ⟨"single", .singleCheaper singleTicketCost.monthlyCost monthlyCost,
        singleTicketCost.monthlyCost, monthlyCost, savings, breakEvenTrips⟩
    else
      .ok ⟨"monthly",
        .monthlySaves (singleTicketCost.monthlyCost - monthlyCost) breakEvenTrips,
        singleTicketCost.monthlyCost, monthlyCost, savings, breakEvenTrips⟩

/-- The ZONE_MAPPINGS table of PriceService.getZoneCode as an association list
    in source order. -/
def ZONE_MAPPINGS : List (String × String) :=
  [("AB", "11"), ("ABC", "12"), ("ABCD", "13"), ("BC", "21"), ("BCD", "22"),
   ("CD", "31"), ("D", "40")]

/-- JS String.prototype.toUpperCase, mapping Char.toUpper over the character
    data (ASCII-equivalent to String.toUpper, whose positional recursion the
    kernel cannot evaluate). -/
def strToUpper (s : String) : String := ⟨s.data.map Char.toUpper⟩

/-- PriceService.getZoneCode (PriceService.ts, lines 749-768): uppercase the
    input, look it up in ZONE_MAPPINGS, and throw a plain Error (not an
    APIError) when there is no match. -/
def getZoneCode (zoneLetters : String) : Except AppError String :=
  match ZONE_MAPPINGS.lookup (strToUpper zoneLetters) with
  | some code => .ok code
  | none =>
    .error (.plainError ("Invalid zone letters: " ++ zoneLetters ++
      ". Valid options: AB, ABC, ABCD, BC, BCD, CD, D"))

/-- Substring test on character lists: JS String.prototype.includes. -/
def containsSub (hay pat : List Char) : Bool :=
  (List.range (hay.length + 1)).any (fun i => pat.isPrefixOf (hay.drop i))

/-- JS hay.includes(pat) on strings. -/
def strContains (hay pat : String) : Bool := containsSub hay.data pat.data

/-- Number of (possibly overlapping) occurrences of pat inside hay. -/
def countOccs (hay pat : String) : Nat :=
  ((List.range (hay.data.length + 1)).filter
    (fun i => pat.data.isPrefixOf (hay.data.drop i))).length

/-- PriceService.handleAPIError (PriceService.ts, lines 664-706) restricted to
    an error that is already an APIError, which is the case the spec claim
    quantifies over.  The JS guard `context && !error.message.includes(context)`
    is: context is present and non-empty, and the message does not already
    contain it. -/
def handleAPIError (error : APIError) (context : Option String) : APIError :=
  match context with
  | none => error
  | some ctx =>
    if ctx ≠ "" ∧ strContains error.message ctx = false then
      ⟨(error.message ++ " while fetching ") ++ ctx, error.type, error.originalError⟩
    else error

/-- A subscription record from the HSL season response (HSLSubscription in
    PriceService.ts). -/
structure HSLSubscription where
  customerGroup : ℤ
  zones : ℤ
  title : String
  price : ℚ
deriving DecidableEq

/-- The predicate fetchTicketPrices uses to find the regular continuous
    subscription: group and zone match, title contains "Jatkuva tilaus" and
    does not contain "säästötilaus" (PriceService.ts, lines 105-111). -/
def matchesContinuousSubscription (customerGroup zones : ℤ) (s : HSLSubscription) : Bool :=
  s.customerGroup == customerGroup && s.zones == zones &&
    strContains s.title "Jatkuva tilaus" && !(strContains s.title "säästötilaus")

/-- The continuousMonthlyFromSubs value extracted by fetchTicketPrices. -/
def continuousMonthlyFromSubs (subs : List HSLSubscription) (customerGroup zones : ℤ) :
    Option ℚ :=
  (subs.find? (matchesContinuousSubscription customerGroup zones)).map HSLSubscription.price

/-- The continuousMonthlyFinal snapshot value of fetchTicketPrices (lines
    126-128): the subscription price when one matches, otherwise the monthly
    fare discounted by 5% and rounded to two decimals. -/
def continuousMonthlyFinal (subs : List HSLSubscription) (customerGroup zones : ℤ)
    (monthlyEquivalent : ℚ) : ℚ :=
  (continuousMonthlyFromSubs subs customerGroup zones).getD
    (round2 (monthlyEquivalent * (95 / 100)))

/-- An entry of the TTL cache: CacheItem of CacheManager.ts. -/
structure CacheItem (α : Type) where
  value : α
  timestamp : ℤ
  ttl : ℤ
deriving DecidableEq

/-- The backing store restricted to this cache's keys, as an association list;
    the uniform reserved key-prelude added by getCacheKey is a bijection on
    keys and is dropped. -/
abbrev CacheState (α : Type) := List (String × CacheItem α)

/-- CacheManager.set at instant now: localStorage.setItem replaces the entry
    under the key; consing the new pair shadows any older one for lookup. -/
def cacheSet {α : Type} (now : ℤ) (s : CacheState α) (k : String) (v : α) (ttl : ℤ) :
    CacheState α :=
  (k, ⟨v, now, ttl⟩) :: s

/-- CacheManager.remove: localStorage.removeItem. -/
def cacheRemove {α : Type} (s : CacheState α) (k : String) : CacheState α :=
  s.filter (fun p => !(p.1 == k))

/-- CacheManager.isExpired at instant now (CacheManager.ts, lines 85-102):
    true for an absent key, else (now - timestamp) > ttl. -/
def cacheIsExpired {α : Type} (now : ℤ) (s : CacheState α) (k : String) : Bool :=
  match List.lookup k s with
  | none => true
  | some it => decide (it.ttl < now - it.timestamp)

/-- CacheManager.get at instant now (CacheManager.ts, lines 20-41): returns the
    value and the store after the side effect (a discovered-expired entry is
    removed). -/
def cacheGet {α : Type} (now : ℤ) (s : CacheState α) (k : String) :
    Option α × CacheState α :=
  match List.lookup k s with
  | none => (none, s)
  | some it =>
    if cacheIsExpired now s k then (none, cacheRemove s k) else (some it.value, s)

/-- Ceiling as a negated floor, letting norm_num evaluate concrete ceilings. -/
theorem Int_ceil_as_floor (x : ℚ) : (⌈x⌉ : ℤ) = -⌊-x⌋ := by
  rw [Int.floor_neg, neg_neg]

/-- Evaluation of calculateSingleTicketCost on the main branch. -/
theorem calculateSingleTicketCost_pos_eval (t f : ℚ) (ht : 0 < t) (hf : 0 < f) :
    calculateSingleTicketCost t f =
      .ok ⟨round2 ((⌈t * WEEKS_PER_MONTH⌉ : ℚ) * f), round2 ((⌈t * 52⌉ : ℚ) * f),
        .formula t (⌈t * WEEKS_PER_MONTH⌉ : ℚ) f (round2 ((⌈t * WEEKS_PER_MONTH⌉ : ℚ) * f)),
        ⌈t * WEEKS_PER_MONTH⌉, ⌈t * WEEKS_PER_MONTH⌉⟩ := by
  unfold calculateSingleTicketCost
  rw [if_neg (not_lt.mpr ht.le), if_neg (not_le.mpr hf), if_neg (ne_of_gt ht)]

/-- C3: for positive trips and fare, the annual cost of calculateSingleTicketCost
    is round(ceil(tripsPerWeek × 52) × fare, 2) computed from the annual trip
    count directly; at 5 trips/week and fare 3.20 the result is monthly 70.40
    and annual 832.00, which differs from monthlyCost × 12 = 844.80. -/
theorem calculateSingleTicketCost_annual_direct (t f : ℚ) (ht : 0 < t) (hf : 0 < f) :
    (∃ r, calculateSingleTicketCost t f = .ok r ∧
      r.annualCost = ((round (((⌈t * 52⌉ : ℤ) : ℚ) * f * 100) : ℤ) : ℚ) / 100) ∧
    (∃ r5, calculateSingleTicketCost 5 (16 / 5) = .ok r5 ∧
      r5.monthlyCost = 352 / 5 ∧ r5.annualCost = 832 ∧
      r5.annualCost ≠ r5.monthlyCost * 12) := by
  constructor
  · refine ⟨_, calculateSingleTicketCost_pos_eval t f ht hf, ?_⟩
    simp only [round2, mul_assoc]
  · refine ⟨_, calculateSingleTicketCost_pos_eval 5 (16 / 5) (by norm_num) (by norm_num),
      ?_, ?_, ?_⟩ <;>
      norm_num [round2, round_eq, Int_ceil_as_floor, WEEKS_PER_MONTH]

/-- Witness for C3 at tripsPerWeek = 5 and fare = 16/5. -/
theorem calculateSingleTicketCost_annual_direct_witness :
    (∃ r, calculateSingleTicketCost 5 (16 / 5) = .ok r ∧
      r.annualCost = ((round (((⌈(5 : ℚ) * 52⌉ : ℤ) : ℚ) * (16 / 5) * 100) : ℤ) : ℚ) / 100) ∧
    (∃ r5, calculateSingleTicketCost 5 (16 / 5) = .ok r5 ∧
      r5.monthlyCost = 352 / 5 ∧ r5.annualCost = 832 ∧
      r5.annualCost ≠ r5.monthlyCost * 12) :=
  calculateSingleTicketCost_annual_direct 5 (16 / 5) (by norm_num) (by norm_num)

/-- C8: calculateSingleTicketCost throws a plain input-validation error for
    negative trips and for non-positive fares, and at zero trips with a
    positive fare it returns the all-zero sentinel record with the fixed
    "No trips - no cost" explanation, independent of the fare. -/
theorem calculateSingleTicketCost_validation (t f : ℚ) :
    (t < 0 → ∃ m, calculateSingleTicketCost t f = .error (.plainError m)) ∧
    (f ≤ 0 → ∃ m, calculateSingleTicketCost t f = .error (.plainError m)) ∧
    (0 < f → calculateSingleTicketCost 0 f = .ok ⟨0, 0, .noTrips, 0, 0⟩) := by
  refine ⟨fun h => ?_, fun h => ?_, fun h => ?_⟩
  · exact ⟨_, by unfold calculateSingleTicketCost; rw [if_pos h]⟩
  · by_cases h1 : t < 0
    · exact ⟨_, by unfold calculateSingleTicketCost; rw [if_pos h1]⟩
    · exact ⟨_, by unfold calculateSingleTicketCost; rw [if_neg h1, if_pos h]⟩
  · unfold calculateSingleTicketCost
    rw [if_neg (lt_irrefl 0), if_neg (not_le.mpr h), if_pos rfl]

/-- Witness for C8 at trips -1, fare 0 and the zero-trips sentinel. -/
theorem calculateSingleTicketCost_validation_witness :
    (∃ m, calculateSingleTicketCost (-1) 5 = .error (.plainError m)) ∧
    (∃ m, calculateSingleTicketCost 5 0 = .error (.plainError m)) ∧
    calculateSingleTicketCost 0 5 = .ok ⟨0, 0, .noTrips, 0, 0⟩ :=
  ⟨(calculateSingleTicketCost_validation (-1) 5).1 (by norm_num),
   (calculateSingleTicketCost_validation 5 0).2.1 (by norm_num),
   (calculateSingleTicketCost_validation 0 5).2.2 (by norm_num)⟩

/-- Lookup misses when the key is not among the stored keys. -/
theorem lookup_eq_none_of_not_mem {β : Type} (a : String) (l : List (String × β))
    (h : a ∉ l.map Prod.fst) : List.lookup a l = none := by
  induction l with
  | nil => rfl
  | cons p ps ih =>
    obtain ⟨k, b⟩ := p
    simp only [List.map_cons, List.mem_cons, not_or] at h
    have hbeq : (a == k) = false := beq_eq_false_iff_ne.mpr h.1
    simp [List.lookup, hbeq, ih h.2]

/-- C7: getZoneCode maps each of the 7 accepted zone-letter combinations
    (case-insensitively) to its code, the 7 keys and the 7 codes are each
    distinct (so the map is a bijection onto the codes), and every other
    string raises the plain input-validation error, not an APIError. -/
theorem getZoneCode_spec (s : String) :
    (strToUpper s = "AB" → getZoneCode s = .ok "11") ∧
    (strToUpper s = "ABC" → getZoneCode s = .ok "12") ∧
    (strToUpper s = "ABCD" → getZoneCode s = .ok "13") ∧
    (strToUpper s = "BC" → getZoneCode s = .ok "21") ∧
    (strToUpper s = "BCD" → getZoneCode s = .ok "22") ∧
    (strToUpper s = "CD" → getZoneCode s = .ok "31") ∧
    (strToUpper s = "D" → getZoneCode s = .ok "40") ∧
    (strToUpper s ∉ ZONE_MAPPINGS.map Prod.fst →
      getZoneCode s = .error (.plainError ("Invalid zone letters: " ++ s ++
        ". Valid options: AB, ABC, ABCD, BC, BCD, CD, D"))) ∧
    (ZONE_MAPPINGS.map Prod.fst).Nodup ∧ (ZONE_MAPPINGS.map Prod.snd).Nodup := by
  refine ⟨fun h => ?_, fun h => ?_, fun h => ?_, fun h => ?_, fun h => ?_, fun h => ?_,
    fun h => ?_, fun h => ?_, by decide, by decide⟩ <;>
    first
    | (simp only [getZoneCode, h]; rfl)
    | (have hl := lookup_eq_none_of_not_mem (strToUpper s) ZONE_MAPPINGS h
       simp only [getZoneCode, hl])

/-- Witness for C7 at the lowercase input "ab" and the rejected empty string. -/
theorem getZoneCode_spec_witness :
    getZoneCode "ab" = .ok "11" ∧
    getZoneCode "" = .error (.plainError ("Invalid zone letters: " ++ "" ++
      ". Valid options: AB, ABC, ABCD, BC, BCD, CD, D")) :=
  ⟨(getZoneCode_spec "ab").1 (by decide),
   (getZoneCode_spec "").2.2.2.2.2.2.2.1 (by decide)⟩

/-- Lookup after removal of a key finds nothing. -/
theorem lookup_cacheRemove {α : Type} (k : String) (s : CacheState α) :
    List.lookup k (cacheRemove s k) = none := by
  induction s with
  | nil => rfl
  | cons p ps ih =>
    obtain ⟨k2, it⟩ := p
    by_cases hb : k2 == k
    · simpa [cacheRemove, List.filter_cons, hb] using ih
    · have hb1 : (k2 == k) = false := by simpa using hb
      have hb2 : (k == k2) = false := by
        rw [beq_eq_false_iff_ne] at hb1 ⊢
        exact fun hk => hb1 hk.symm
      simpa [cacheRemove, List.filter_cons, hb1, List.lookup, hb2] using ih

/-- Freshly set entries are found. -/
theorem lookup_cacheSet {α : Type} (now : ℤ) (s : CacheState α) (k : String) (v : α)
    (ttl : ℤ) : List.lookup k (cacheSet now s k v ttl) = some ⟨v, now, ttl⟩ := by
  simp [cacheSet, List.lookup]

/-- C6: after set(k, v, ttl) at instant t0, get at instant t returns v while
    t - t0 ≤ ttl; once t - t0 > ttl, get returns none and the returned store no
    longer holds the key, and isExpired is true; isExpired on a never-set key
    is true. -/
theorem cache_set_get_expiry {α : Type} (s : CacheState α) (k : String) (v : α)
    (ttl t0 t : ℤ) :
    (t - t0 ≤ ttl →
      cacheGet t (cacheSet t0 s k v ttl) k = (some v, cacheSet t0 s k v ttl)) ∧
    (ttl < t - t0 →
      (cacheGet t (cacheSet t0 s k v ttl) k).1 = none ∧
      List.lookup k (cacheGet t (cacheSet t0 s k v ttl) k).2 = none ∧
      cacheIsExpired t (cacheSet t0 s k v ttl) k = true) ∧
    (List.lookup k s = none → cacheIsExpired t s k = true) := by
  have hl := lookup_cacheSet t0 s k v ttl
  have hexp : cacheIsExpired t (cacheSet t0 s k v ttl) k = decide (ttl < t - t0) := by
    simp [cacheIsExpired, hl]
  refine ⟨fun h => ?_, fun h => ?_, fun h => ?_⟩
  · have hfalse : cacheIsExpired t (cacheSet t0 s k v ttl) k = false := by
      rw [hexp]; exact decide_eq_false (not_lt.mpr h)
    simp [cacheGet, hl, hfalse]
  · have htrue : cacheIsExpired t (cacheSet t0 s k v ttl) k = true := by
      rw [hexp]; exact decide_eq_true h
    refine ⟨?_, ?_, htrue⟩
    · simp [cacheGet, hl, htrue]
    · simp only [cacheGet, hl, htrue, if_true]
      exact lookup_cacheRemove k _
  · simp [cacheIsExpired, h]

/-- Witness for C6: a fresh entry with ttl 100 stored at instant 0 is returned
    at instant 50, gone and expired at instant 150, and a never-set key is
    expired. -/
theorem cache_set_get_expiry_witness :
    cacheGet 50 (cacheSet 0 ([] : CacheState ℤ) "k" 7 100) "k" =
      (some 7, cacheSet 0 ([] : CacheState ℤ) "k" 7 100) ∧
    (cacheGet 150 (cacheSet 0 ([] : CacheState ℤ) "k" 7 100) "k").1 = none ∧
    List.lookup "k" (cacheGet 150 (cacheSet 0 ([] : CacheState ℤ) "k" 7 100) "k").2 = none ∧
    cacheIsExpired 150 (cacheSet 0 ([] : CacheState ℤ) "k" 7 100) "k" = true ∧
    cacheIsExpired 150 ([] : CacheState ℤ) "k" = true :=
  ⟨(cache_set_get_expiry ([] : CacheState ℤ) "k" 7 100 0 50).1 (by norm_num),
   ((cache_set_get_expiry ([] : CacheState ℤ) "k" 7 100 0 150).2.1 (by norm_num)).1,
   ((cache_set_get_expiry ([] : CacheState ℤ) "k" 7 100 0 150).2.1 (by norm_num)).2.1,
   ((cache_set_get_expiry ([] : CacheState ℤ) "k" 7 100 0 150).2.1 (by norm_num)).2.2,
   (cache_set_get_expiry ([] : CacheState ℤ) "k" 7 100 0 150).2.2 rfl⟩

/-- A character list is its own beq-prelude. -/
theorem isPrefixOf_self_char (l : List Char) : l.isPrefixOf l = true := by
  induction l with
  | nil => rfl
  | cons a as ih => simp [List.isPrefixOf, ih]

/-- A string contains its own appended suffix. -/
theorem strContains_append_self (s t : String) : strContains (s ++ t) t = true := by
  unfold strContains containsSub
  rw [List.any_eq_true]
  refine ⟨s.data.length, ?_, ?_⟩
  · rw [List.mem_range]
    have hd : (s ++ t).data = s.data ++ t.data := rfl
    rw [hd, List.length_append]
    omega
  · have hd : (s ++ t).data = s.data ++ t.data := rfl
    rw [hd, List.drop_left]
    exact isPrefixOf_self_char _

/-- C9 (amended): handleAPIError preserves the kind tag; re-applying it with
    the same context is the identity, so the context phrase is never appended
    twice; and after one application with a nonempty context the message
    contains the context at least once. -/
theorem handleAPIError_idempotent (e : APIError) (ctx : Option String) :
    (handleAPIError e ctx).type = e.type ∧
    handleAPIError (handleAPIError e ctx) ctx = handleAPIError e ctx ∧
    (∀ c, ctx = some c → c ≠ "" → strContains (handleAPIError e ctx).message c = true) := by
  cases ctx with
  | none => exact ⟨rfl, rfl, fun c hc => absurd hc (by simp)⟩
  | some c =>
    by_cases hcond : c ≠ "" ∧ strContains e.message c = false
    · have happ : handleAPIError e (some c) =
          ⟨(e.message ++ " while fetching ") ++ c, e.type, e.originalError⟩ := by
        simp only [handleAPIError, if_pos hcond]
      have hcon : strContains ((e.message ++ " while fetching ") ++ c) c = true :=
        strContains_append_self _ _
      refine ⟨by rw [happ], ?_, ?_⟩
      · rw [happ]
        simp only [handleAPIError]
        rw [if_neg]
        intro hbad
        rw [hcon] at hbad
        exact absurd hbad.2 (by simp)
      · intro d hd hne
        have hcd : c = d := by injection hd
        subst hcd
        rw [happ]
        exact hcon
    · have hun : handleAPIError e (some c) = e := by
        simp only [handleAPIError, if_neg hcond]
      refine ⟨by rw [hun], by rw [hun, hun], ?_⟩
      intro d hd hne
      have hcd : c = d := by injection hd
      subst hcd
      rw [hun]
      cases hb : strContains e.message c with
      | false => exact absurd ⟨hne, hb⟩ hcond
      | true => rfl

/-- Counterexample for C9 as stated: an APIError whose message already holds
    the context twice is returned unchanged (idempotence), so after wrapping
    the message contains the context twice, not exactly once. -/
theorem handleAPIError_context_once_cex :
    handleAPIError ⟨"single ticket single ticket", .network, none⟩ (some "single ticket") =
      ⟨"single ticket single ticket", ErrorType.network, none⟩ ∧
    countOccs (handleAPIError (handleAPIError ⟨"single ticket single ticket", .network, none⟩
      (some "single ticket")) (some "single ticket")).message "single ticket" = 2 ∧
    (2 : Nat) ≠ 1 := by
  refine ⟨by decide, by decide, by decide⟩

/-- Witness for C9 (amended) at a message without the context and a concrete
    nonempty context. -/
theorem handleAPIError_idempotent_witness :
    (handleAPIError ⟨"boom", .network, none⟩ (some "single ticket")).type =
      ErrorType.network ∧
    handleAPIError (handleAPIError ⟨"boom", .network, none⟩ (some "single ticket"))
        (some "single ticket") =
      handleAPIError ⟨"boom", .network, none⟩ (some "single ticket") ∧
    strContains (handleAPIError ⟨"boom", .network, none⟩ (some "single ticket")).message
      "single ticket" = true := by
  have h := handleAPIError_idempotent ⟨"boom", .network, none⟩ (some "single ticket")
  exact ⟨h.1, h.2.1, h.2.2 "single ticket" rfl (by decide)⟩

/-- Rounding to two decimals is the identity on exact two-decimal amounts. -/
theorem round2_div_hundred (k : ℤ) : round2 ((k : ℚ) / 100) = (k : ℚ) / 100 := by
  unfold round2
  rw [div_mul_cancel₀ _ (by norm_num : (100 : ℚ) ≠ 0), round_intCast]

/-- Rounding to two decimals is idempotent. -/
theorem round2_round2 (x : ℚ) : round2 (round2 x) = round2 x :=
  round2_div_hundred (round (x * 100))

/-- Evaluation of calculateContinuousMonthlyTicketCost on a positive explicit
    fare: the explicit fare wins regardless of the discount rate. -/
theorem cont_explicit_eval (m dr c : ℚ) (hm : 0 < m) (hc : 0 < c) :
    calculateContinuousMonthlyTicketCost m (some c) dr =
      .ok ⟨round2 c, round2 (round2 c * 12), .fixedMonthly (round2 c)⟩ := by
  unfold calculateContinuousMonthlyTicketCost
  rw [if_neg (not_le.mpr hm)]
  simp only [decide_eq_true_eq, Option.getD_some]
  rw [if_pos hc, if_pos hc]

/-- Evaluation of calculateContinuousMonthlyTicketCost when the explicit fare
    is absent or non-positive: the discounted monthly fare is used. -/
theorem cont_discount_eval (m dr : ℚ) (hm : 0 < m) (c : Option ℚ)
    (hc : c = none ∨ ∃ v, v ≤ 0 ∧ c = some v) :
    calculateContinuousMonthlyTicketCost m c dr =
      .ok ⟨round2 (m * (1 - dr)), round2 (round2 (m * (1 - dr)) * 12),
        .discounted m dr (round2 (m * (1 - dr)))⟩ := by
  unfold calculateContinuousMonthlyTicketCost
  rw [if_neg (not_le.mpr hm)]
  rcases hc with rfl | ⟨v, hv, rfl⟩
  · simp [round2_round2]
  · simp only [decide_eq_true_eq]
    simp [round2_round2, not_lt.mpr hv]

/-- C5 (amended): a positive explicit continuous fare takes precedence over any
    discount rate, with the fixed-price explanation, and yields
    round(fare, 2) as monthlyCost, hence the fare itself whenever it is an
    exact two-decimal amount; an absent or non-positive explicit fare falls
    back to round(monthly × (1 − discountRate), 2); and fetchTicketPrices puts
    round(monthly × 0.95, 2) into the snapshot when no subscription matches. -/
theorem calculateContinuousMonthly_explicit_precedence (m dr : ℚ) (hm : 0 < m) :
    (∀ c : ℚ, 0 < c →
      calculateContinuousMonthlyTicketCost m (some c) dr =
        .ok ⟨round2 c, round2 (round2 c * 12), .fixedMonthly (round2 c)⟩) ∧
    (∀ k : ℤ, 0 < k →
      ∃ r, calculateContinuousMonthlyTicketCost m (some ((k : ℚ) / 100)) dr = .ok r ∧
        r.monthlyCost = (k : ℚ) / 100 ∧ r.calculation = .fixedMonthly ((k : ℚ) / 100)) ∧
    (∀ c : Option ℚ, (c = none ∨ ∃ v, v ≤ 0 ∧ c = some v) →
      calculateContinuousMonthlyTicketCost m c dr =
        .ok ⟨round2 (m * (1 - dr)), round2 (round2 (m * (1 - dr)) * 12),
          .discounted m dr (round2 (m * (1 - dr)))⟩) ∧
    (∀ (subs : List HSLSubscription) (g z : ℤ),
      continuousMonthlyFromSubs subs g z = none →
      continuousMonthlyFinal subs g z m = round2 (m * (95 / 100))) := by
  refine ⟨fun c hc => cont_explicit_eval m dr c hm hc, fun k hk => ?_,
    fun c hc => cont_discount_eval m dr hm c hc, fun subs g z h => ?_⟩
  · have hkq : (0 : ℚ) < (k : ℚ) / 100 :=
      div_pos (by exact_mod_cast hk) (by norm_num)
    refine ⟨_, cont_explicit_eval m dr _ hm hkq, ?_, ?_⟩
    · exact round2_div_hundred k
    · show FixedCalc.fixedMonthly (round2 ((k : ℚ) / 100)) = .fixedMonthly ((k : ℚ) / 100)
      rw [round2_div_hundred]
  · unfold continuousMonthlyFinal
    rw [h]
    rfl

/-- Counterexample for C5 as stated: the explicit fare 1/3 is positive but the
    returned monthlyCost is its two-decimal rounding 0.33, not the fare
    verbatim. -/
theorem calculateContinuousMonthly_verbatim_cex :
    (calculateContinuousMonthlyTicketCost 100 (some (1 / 3)) (5 / 100)).toOption.map
      (fun r => r.monthlyCost) = some (33 / 100) ∧ (33 / 100 : ℚ) ≠ 1 / 3 := by
  constructor
  · rw [cont_explicit_eval 100 (5 / 100) (1 / 3) (by norm_num) (by norm_num)]
    simp only [Except.toOption, Option.map_some]
    norm_num [round2, round_eq]
  · norm_num

/-- Witness for C5 (amended) at monthly 100, non-default discount 1/10,
    explicit fares 50 and 0.61, and an empty subscription list. -/
theorem calculateContinuousMonthly_explicit_precedence_witness :
    calculateContinuousMonthlyTicketCost 100 (some 50) (1 / 10) =
      .ok ⟨round2 50, round2 (round2 50 * 12), .fixedMonthly (round2 50)⟩ ∧
    (∃ r, calculateContinuousMonthlyTicketCost 100 (some (((61 : ℤ) : ℚ) / 100)) (1 / 10) =
      .ok r ∧ r.monthlyCost = ((61 : ℤ) : ℚ) / 100 ∧
      r.calculation = .fixedMonthly (((61 : ℤ) : ℚ) / 100)) ∧
    calculateContinuousMonthlyTicketCost 100 none (1 / 10) =
      .ok ⟨round2 (100 * (1 - 1 / 10)), round2 (round2 (100 * (1 - 1 / 10)) * 12),
        .discounted 100 (1 / 10) (round2 (100 * (1 - 1 / 10)))⟩ ∧
    continuousMonthlyFinal [] 1 11 100 = round2 (100 * (95 / 100)) := by
  have h := calculateContinuousMonthly_explicit_precedence 100 (1 / 10) (by norm_num)
  exact ⟨h.1 50 (by norm_num), h.2.1 61 (by norm_num), h.2.2.1 none (Or.inl rfl),
    h.2.2.2 [] 1 11 rfl⟩

/-- C4: for positive trips and a valid tier, calculateSeriesTicketCost returns
    journeysWasted ≥ 0, and wasteWarning is present exactly when
    journeysWasted / (ticketsNeeded × tier.journeys) ≥ 0.20; the comparison is
    ≥, so a ratio of exactly 0.20 triggers the warning. -/
theorem calculateSeriesTicketCost_waste_iff (t : ℚ) (tier : SeriesTicket)
    (ht : 0 < t) (hp : 0 < tier.price) (hj : 0 < tier.journeys)
    (hv : 0 < tier.validityDays) :
    ∃ r, calculateSeriesTicketCost t tier = .ok r ∧ 0 ≤ r.journeysWasted ∧
      (r.wasteWarning.isSome ↔
        1 / 5 ≤ r.journeysWasted / ((r.ticketsNeeded : ℚ) * tier.journeys)) := by
  have h1 : ¬ t < 0 := not_lt.mpr ht.le
  have h2 : ¬ (tier.price ≤ 0 ∨ tier.journeys ≤ 0 ∨ tier.validityDays ≤ 0) := by
    push_neg
    exact ⟨hp, hj, hv⟩
  have htpm : (0 : ℤ) < ⌈t * WEEKS_PER_MONTH⌉ :=
    Int.ceil_pos.mpr (mul_pos ht (by norm_num [WEEKS_PER_MONTH]))
  have h3 : ¬ (⌈t * WEEKS_PER_MONTH⌉ = (0 : ℤ)) := htpm.ne'
  have heffpos : (0 : ℚ) <
      max 1 (min tier.journeys ((⌈t * (tier.validityDays / 7)⌉ : ℤ) : ℚ)) :=
    lt_of_lt_of_le one_pos (le_max_left _ _)
  have htn : (0 : ℤ) < ⌈((⌈t * WEEKS_PER_MONTH⌉ : ℤ) : ℚ) /
      max 1 (min tier.journeys ((⌈t * (tier.validityDays / 7)⌉ : ℤ) : ℚ))⌉ :=
    Int.ceil_pos.mpr (div_pos (by exact_mod_cast htpm) heffpos)
  have hcap : (0 : ℚ) < ((⌈((⌈t * WEEKS_PER_MONTH⌉ : ℤ) : ℚ) /
      max 1 (min tier.journeys ((⌈t * (tier.validityDays / 7)⌉ : ℤ) : ℚ))⌉ : ℤ) : ℚ) *
      tier.journeys :=
    mul_pos (by exact_mod_cast htn) hj
  simp only [calculateSeriesTicketCost, if_neg h1, if_neg h2, if_neg h3]
  refine ⟨_, rfl, le_max_left 0 _, ?_⟩
  rw [if_neg hcap.ne']
  split
  · simp only [Option.isSome_some, true_iff]
    assumption
  · simp only [Option.isSome_none, Bool.false_eq_true, false_iff]
    assumption

/-- Witness for C4 at 4 trips/week on a 10-journey, 14-day tier: 3 packs are
    needed, 6 of 30 journeys are wasted, a ratio of exactly 0.20, and the
    warning is present. -/
theorem calculateSeriesTicketCost_waste_iff_witness :
    (∃ r, calculateSeriesTicketCost 4 ⟨10, 10, 14⟩ = .ok r ∧ 0 ≤ r.journeysWasted ∧
      (r.wasteWarning.isSome ↔
        1 / 5 ≤ r.journeysWasted /
          ((r.ticketsNeeded : ℚ) * (SeriesTicket.mk 10 10 14).journeys))) ∧
    (calculateSeriesTicketCost 4 ⟨10, 10, 14⟩).toOption.map
      (fun r => (r.journeysWasted, r.ticketsNeeded, r.wasteWarning.isSome)) =
      some (6, 3, true) := by
  refine ⟨calculateSeriesTicketCost_waste_iff 4 ⟨10, 10, 14⟩ (by norm_num) (by norm_num)
    (by norm_num) (by norm_num), ?_⟩
  norm_num [calculateSeriesTicketCost, round2, round_eq, Int_ceil_as_floor,
    WEEKS_PER_MONTH, Except.toOption]

/-- C10: whenever getTicketRecommendation succeeds and the computed single
    monthly cost exactly equals the flat monthly fare, the ≤ comparison makes
    pay-per-ride win the tie: the recommendation is "single" and the reported
    savings are 0. -/
theorem getTicketRecommendation_break_even (t sp mp : ℚ) (r : Recommendation)
    (hr : getTicketRecommendation t sp mp = .ok r)
    (heq : r.singleCost = r.monthlyCost) :
    r.recommendation = "single" ∧ r.savings = 0 := by
  cases hc : calculateSingleTicketCost t sp with
  | error e =>
    simp only [getTicketRecommendation, hc] at hr
    exact absurd hr (by simp)
  | ok sc =>
    simp only [getTicketRecommendation, hc] at hr
    by_cases h0 : t = 0
    · rw [if_pos h0] at hr
      injection hr with h
      subst h
      refine ⟨rfl, ?_⟩
      show max 0 (sc.monthlyCost - mp) = 0
      have h2 : sc.monthlyCost = mp := heq
      rw [h2, sub_self, max_self]
    · rw [if_neg h0] at hr
      by_cases h1 : sc.monthlyCost ≤ mp
      · rw [if_pos h1] at hr
        injection hr with h
        subst h
        refine ⟨rfl, ?_⟩
        show max 0 (sc.monthlyCost - mp) = 0
        have h2 : sc.monthlyCost = mp := heq
        rw [h2, sub_self, max_self]
      · rw [if_neg h1] at hr
        injection hr with h
        subst h
        exact absurd (le_of_eq (heq : sc.monthlyCost = mp)) h1

/-- Witness for C10 at 5 trips/week, fare 3.20 and flat fare 70.40 (the exact
    break-even): recommendation "single", savings 0, break-even 22 trips. -/
theorem getTicketRecommendation_break_even_witness :
    ∃ r, getTicketRecommendation 5 (16 / 5) (352 / 5) = .ok r ∧
      r.recommendation = "single" ∧ r.savings = 0 := by
  have hc : getTicketRecommendation 5 (16 / 5) (352 / 5) = .ok ⟨"single",
      .singleCheaper (352 / 5) (352 / 5), 352 / 5, 352 / 5, 0, 22⟩ := by
    norm_num [getTicketRecommendation, calculateSingleTicketCost, round2, round_eq,
      Int_ceil_as_floor, WEEKS_PER_MONTH, max_self]
  exact ⟨_, hc, getTicketRecommendation_break_even 5 (16 / 5) (352 / 5) _ hc rfl⟩

/-- firstMin of a nonempty list is some. -/
theorem firstMin_isSome (x : KeyCost) (xs : List KeyCost) :
    ∃ m, firstMin (x :: xs) = some m := by
  cases h : firstMin xs with
  | none => exact ⟨x, by simp [firstMin, h]⟩
  | some m =>
    by_cases hc : x.cost ≤ m.cost
    · exact ⟨x, by simp [firstMin, h, hc]⟩
    · exact ⟨m, by simp [firstMin, h, hc]⟩

/-- The firstMin element belongs to the list. -/
theorem firstMin_mem {l : List KeyCost} {m : KeyCost} (h : firstMin l = some m) :
    m ∈ l := by
  induction l generalizing m with
  | nil => exact absurd h (by simp [firstMin])
  | cons x xs ih =>
    cases h2 : firstMin xs with
    | none =>
      simp only [firstMin, h2] at h
      injection h with h
      rw [← h]
      exact List.mem_cons_self x xs
    | some m2 =>
      simp only [firstMin, h2] at h
      by_cases hc : x.cost ≤ m2.cost
      · rw [if_pos hc] at h
        injection h with h
        rw [← h]
        exact List.mem_cons_self x xs
      · rw [if_neg hc] at h
        injection h with h
        rw [← h]
        exact List.mem_cons_of_mem x (ih h2)

/-- The firstMin element has minimal cost. -/
theorem firstMin_le {l : List KeyCost} {m : KeyCost} (h : firstMin l = some m) :
    ∀ x ∈ l, m.cost ≤ x.cost := by
  induction l generalizing m with
  | nil => exact absurd h (by simp [firstMin])
  | cons y ys ih =>
    intro x hx
    cases h2 : firstMin ys with
    | none =>
      have hys : ys = [] := by
        cases ys with
        | nil => rfl
        | cons a as =>
          obtain ⟨mm, hmm⟩ := firstMin_isSome a as
          rw [hmm] at h2
          exact absurd h2 (by simp)
      subst hys
      simp only [firstMin] at h
      injection h with h
      rw [← h]
      rcases List.mem_singleton.mp hx with rfl
      exact le_refl _
    | some m2 =>
      simp only [firstMin, h2] at h
      by_cases hc : y.cost ≤ m2.cost
      · rw [if_pos hc] at h
        injection h with h
        rw [← h]
        rcases List.mem_cons.mp hx with rfl | hx2
        · exact le_refl _
        · exact le_trans hc (ih h2 x hx2)
      · rw [if_neg hc] at h
        injection h with h
        rw [← h]
        rcases List.mem_cons.mp hx with rfl | hx2
        · exact le_of_lt (not_le.mp hc)
        · exact ih h2 x hx2

/-- A head that is minimal is the firstMin. -/
theorem firstMin_cons_of_min (x : KeyCost) (l : List KeyCost)
    (h : ∀ y ∈ l, x.cost ≤ y.cost) : firstMin (x :: l) = some x := by
  cases h2 : firstMin l with
  | none => simp [firstMin, h2]
  | some m => simp [firstMin, h2, if_pos (h m (firstMin_mem h2))]

/-- When the second element is minimal and strictly beats the head, it is the
    firstMin. -/
theorem firstMin_second_of (a b : KeyCost) (l : List KeyCost)
    (hmin : ∀ y ∈ b :: l, b.cost ≤ y.cost) (hlt : b.cost < a.cost) :
    firstMin (a :: b :: l) = some b := by
  have h1 : firstMin (b :: l) = some b :=
    firstMin_cons_of_min b l (fun y hy => hmin y (List.mem_cons_of_mem b hy))
  rw [show firstMin (a :: b :: l) =
      (match firstMin (b :: l) with
       | none => some a
       | some m => if a.cost ≤ m.cost then some a else some m) from rfl, h1]
  exact if_neg (not_le.mpr hlt)

/-- The head of the stable ascending sort is the first minimal-cost element of
    the original list. -/
theorem head?_stableSortByCost (l : List KeyCost) :
    (stableSortByCost l).head? = firstMin l := by
  induction l with
  | nil => rfl
  | cons x xs ih =>
    simp only [stableSortByCost]
    cases hs : stableSortByCost xs with
    | nil =>
      have h2 : firstMin xs = none := by rw [← ih, hs]; rfl
      simp [insertByCost, firstMin, h2]
    | cons y ys =>
      have h2 : firstMin xs = some y := by rw [← ih, hs]; rfl
      simp only [insertByCost, firstMin, h2]
      split_ifs with hc <;> rfl

/-- calculateSingleTicketCost succeeds on valid inputs. -/
theorem calculateSingleTicketCost_ok (t f : ℚ) (ht : 0 ≤ t) (hf : 0 < f) :
    ∃ r, calculateSingleTicketCost t f = .ok r := by
  unfold calculateSingleTicketCost
  rw [if_neg (not_lt.mpr ht), if_neg (not_le.mpr hf)]
  by_cases h0 : t = 0
  · rw [if_pos h0]; exact ⟨_, rfl⟩
  · rw [if_neg h0]; exact ⟨_, rfl⟩

/-- Evaluation of calculateSeasonTicketCost on a positive fare. -/
theorem calculateSeasonTicketCost_ok (s : ℚ) (hs : 0 < s) :
    calculateSeasonTicketCost s =
      .ok ⟨round2 s, round2 (s * 12), .seasonThirtyDay (round2 s)⟩ := by
  unfold calculateSeasonTicketCost
  rw [if_neg (not_le.mpr hs)]

/-- calculateContinuousMonthlyTicketCost succeeds on a positive monthly fare. -/
theorem calculateContinuousMonthlyTicketCost_ok (m dr : ℚ) (c : Option ℚ)
    (hm : 0 < m) : ∃ r, calculateContinuousMonthlyTicketCost m c dr = .ok r := by
  unfold calculateContinuousMonthlyTicketCost
  rw [if_neg (not_le.mpr hm)]
  exact ⟨_, rfl⟩

/-- calculateSeriesTicketCost succeeds on valid inputs. -/
theorem calculateSeriesTicketCost_ok (t : ℚ) (tier : SeriesTicket) (ht : 0 ≤ t)
    (hp : 0 < tier.price) (hj : 0 < tier.journeys) (hv : 0 < tier.validityDays) :
    ∃ r, calculateSeriesTicketCost t tier = .ok r := by
  have h2 : ¬ (tier.price ≤ 0 ∨ tier.journeys ≤ 0 ∨ tier.validityDays ≤ 0) := by
    push_neg
    exact ⟨hp, hj, hv⟩
  simp only [calculateSeriesTicketCost, if_neg (not_lt.mpr ht), if_neg h2]
  split
  · exact ⟨_, rfl⟩
  · exact ⟨_, rfl⟩

/-- calcOptionalSeries succeeds when any present tier is valid. -/
theorem calcOptionalSeries_ok (t : ℚ) (ht : 0 ≤ t) (o : Option SeriesTicket)
    (h : ∀ tier, o = some tier →
      0 < tier.price ∧ 0 < tier.journeys ∧ 0 < tier.validityDays) :
    ∃ s, calcOptionalSeries t o = .ok s := by
  cases o with
  | none => exact ⟨none, rfl⟩
  | some tier =>
    obtain ⟨hp, hj, hv⟩ := h tier rfl
    obtain ⟨r, hr⟩ := calculateSeriesTicketCost_ok t tier ht hp hj hv
    exact ⟨some r, by simp [calcOptionalSeries, hr, Except.map]⟩

/-- The options list is nonempty: it always holds the single option. -/
theorem firstMin_optionsList_isSome (a : SingleCostResult) (b c : FixedCostResult)
    (d e : Option SeriesCostResult) :
    ∃ m, firstMin (optionsList a b c d e) = some m := by
  simp only [optionsList, List.cons_append, List.nil_append]
  exact firstMin_isSome _ _

/-- Whenever findOptimalOption succeeds, its optimal key is the key of the
    first option of minimal monthly cost in the canonical push order
    (single, season, continuousMonthly, series10, series20). -/
theorem findOptimalOption_ok_spec (t : ℚ) (p : PricesInput) (r : OptimalResult)
    (hr : findOptimalOption t p = .ok r) :
    ∃ m, firstMin (optionsList r.single r.season r.continuousMonthly r.series10
        r.series20) = some m ∧ r.optimal = m.key ∧
      ∀ o ∈ optionsList r.single r.season r.continuousMonthly r.series10 r.series20,
        m.cost ≤ o.cost := by
  cases h1 : calculateSingleTicketCost t p.single with
  | error e => simp only [findOptimalOption, h1] at hr; exact absurd hr (by simp)
  | ok single =>
  cases h2 : calculateSeasonTicketCost p.season with
  | error e => simp only [findOptimalOption, h1, h2] at hr; exact absurd hr (by simp)
  | ok season =>
  cases h3 : calculateContinuousMonthlyTicketCost p.season p.continuousMonthly (5 / 100) with
  | error e => simp only [findOptimalOption, h1, h2, h3] at hr; exact absurd hr (by simp)
  | ok cm =>
  cases h4 : calcOptionalSeries t p.series10 with
  | error e => simp only [findOptimalOption, h1, h2, h3, h4] at hr; exact absurd hr (by simp)
  | ok s10 =>
  cases h5 : calcOptionalSeries t p.series20 with
  | error e =>
    simp only [findOptimalOption, h1, h2, h3, h4, h5] at hr
    exact absurd hr (by simp)
  | ok s20 =>
    simp only [findOptimalOption, h1, h2, h3, h4, h5] at hr
    injection hr with h
    subst h
    obtain ⟨m, hm⟩ := firstMin_optionsList_isSome single season cm s10 s20
    refine ⟨m, hm, ?_, firstMin_le hm⟩
    show ((stableSortByCost (optionsList single season cm s10 s20)).head?.map
      KeyCost.key).getD .single = m.key
    rw [head?_stableSortByCost, hm]
    rfl

/-- C2: for every tripsPerWeek ≥ 0 and valid positive prices, findOptimalOption
    succeeds and returns the key of the first option of minimal monthly cost in
    the canonical ordering (single, season, continuousMonthly, series10,
    series20): the cost of the chosen key is the minimum, and exact ties go to
    the earlier option of the ordering, the stable-sort head. -/
theorem findOptimalOption_min_canonical (t : ℚ) (p : PricesInput)
    (ht : 0 ≤ t) (hsingle : 0 < p.single) (hseason : 0 < p.season)
    (h10 : ∀ tier, p.series10 = some tier →
      0 < tier.price ∧ 0 < tier.journeys ∧ 0 < tier.validityDays)
    (h20 : ∀ tier, p.series20 = some tier →
      0 < tier.price ∧ 0 < tier.journeys ∧ 0 < tier.validityDays) :
    ∃ r m, findOptimalOption t p = .ok r ∧
      firstMin (optionsList r.single r.season r.continuousMonthly r.series10
        r.series20) = some m ∧
      r.optimal = m.key ∧
      ∀ o ∈ optionsList r.single r.season r.continuousMonthly r.series10 r.series20,
        m.cost ≤ o.cost := by
  obtain ⟨rs, h1⟩ := calculateSingleTicketCost_ok t p.single ht hsingle
  have h2 := calculateSeasonTicketCost_ok p.season hseason
  obtain ⟨rc, h3⟩ :=
    calculateContinuousMonthlyTicketCost_ok p.season (5 / 100) p.continuousMonthly hseason
  obtain ⟨s10, h4⟩ := calcOptionalSeries_ok t ht p.series10 h10
  obtain ⟨s20, h5⟩ := calcOptionalSeries_ok t ht p.series20 h20
  have hfind : ∃ rr, findOptimalOption t p = .ok rr := by
    simp only [findOptimalOption, h1, h2, h3, h4, h5]
    exact ⟨_, rfl⟩
  obtain ⟨rr, hrr⟩ := hfind
  obtain ⟨m, hm, ho, hle⟩ := findOptimalOption_ok_spec t p rr hrr
  exact ⟨rr, m, hrr, hm, ho, hle⟩

/-- Witness for C2 at the end-to-end inputs of the spec: 5 trips/week, single
    3.20, series10 {12.50, 10, 14}, season 107.70, continuousMonthly 58. -/
theorem findOptimalOption_min_canonical_witness :
    ∃ r m, findOptimalOption 5 ⟨16 / 5, some ⟨25 / 2, 10, 14⟩, none, 1077 / 10, some 58⟩ =
        .ok r ∧
      firstMin (optionsList r.single r.season r.continuousMonthly r.series10
        r.series20) = some m ∧
      r.optimal = m.key ∧
      ∀ o ∈ optionsList r.single r.season r.continuousMonthly r.series10 r.series20,
        m.cost ≤ o.cost := by
  refine findOptimalOption_min_canonical 5 _ (by norm_num) (by norm_num) (by norm_num)
    ?_ ?_
  · intro tier htier
    injection htier with h
    subst h
    exact ⟨by norm_num, by norm_num, by norm_num⟩
  · intro tier htier
    exact absurd htier (by simp)

/-- Counterexample for C1 as stated: with single 10, season 50 and an explicit
    continuous fare 50 at 10 trips/week, season and continuousMonthly tie at
    the minimal monthly cost 50 (single is 440), yet the returned optimal key
    is season, not continuousMonthly: the stable sort keeps the push order, in
    which season comes before continuousMonthly. -/
theorem findOptimalOption_tie_cex :
    (findOptimalOption 10 ⟨10, none, none, 50, some 50⟩).toOption.map
      OptimalResult.optimal = some OptionKey.season ∧
    (findOptimalOption 10 ⟨10, none, none, 50, some 50⟩).toOption.map
      (fun r => (r.season.monthlyCost, r.continuousMonthly.monthlyCost,
        r.single.monthlyCost, r.series10, r.series20)) =
      some (50, 50, 440, none, none) ∧
    OptionKey.season ≠ OptionKey.continuousMonthly := by
  refine ⟨?_, ?_, by decide⟩ <;>
    norm_num [findOptimalOption, calculateSingleTicketCost, calculateSeasonTicketCost,
      calculateContinuousMonthlyTicketCost, calcOptionalSeries, optionsList,
      stableSortByCost, insertByCost, round2, round_eq, Int_ceil_as_floor,
      WEEKS_PER_MONTH, Except.toOption]

/-- C1 (amended): when the computed season and continuousMonthly monthly costs
    are exactly equal and minimal among all computed options, and single is
    strictly more expensive, findOptimalOption returns season — season, not
    continuousMonthly, wins the tie because it is pushed earlier. -/
theorem findOptimalOption_season_ties_continuous (t : ℚ) (p : PricesInput)
    (r : OptimalResult) (hr : findOptimalOption t p = .ok r)
    (heq : r.season.monthlyCost = r.continuousMonthly.monthlyCost)
    (hmin : ∀ o ∈ optionsList r.single r.season r.continuousMonthly r.series10
      r.series20, r.season.monthlyCost ≤ o.cost)
    (hlt : r.season.monthlyCost < r.single.monthlyCost) :
    r.optimal = OptionKey.season := by
  obtain ⟨m, hm, hopt, _⟩ := findOptimalOption_ok_spec t p r hr
  simp only [optionsList, List.cons_append, List.nil_append] at hm hmin
  rw [firstMin_second_of _ _ _ (fun y hy => hmin y (List.mem_cons_of_mem _ hy)) hlt]
    at hm
  injection hm with hm
  rw [hopt, ← hm]

/-- Witness for C1 (amended) at the tie input of the counterexample. -/
theorem findOptimalOption_season_ties_continuous_witness :
    ∃ r, findOptimalOption 10 ⟨10, none, none, 50, some 50⟩ = Except.ok r ∧
      r.optimal = OptionKey.season := by
  have h1 : (findOptimalOption 10 ⟨10, none, none, 50, some 50⟩).toOption.map
      (fun r => (r.season.monthlyCost, r.continuousMonthly.monthlyCost,
        r.single.monthlyCost, r.series10, r.series20)) =
      some (50, 50, 440, none, none) := by
    norm_num [findOptimalOption, calculateSingleTicketCost, calculateSeasonTicketCost,
      calculateContinuousMonthlyTicketCost, calcOptionalSeries, optionsList,
      stableSortByCost, insertByCost, round2, round_eq, Int_ceil_as_floor,
      WEEKS_PER_MONTH, Except.toOption]
  cases hfo : findOptimalOption 10 ⟨10, none, none, 50, some 50⟩ with
  | error e =>
    rw [hfo] at h1
    exact absurd h1 (by simp [Except.toOption])
  | ok r =>
    rw [hfo] at h1
    simp only [Except.toOption, Option.map_some', Option.some.injEq, Prod.mk.injEq]
      at h1
    obtain ⟨e1, e2, e3, e4, e5⟩ := h1
    refine ⟨r, rfl, findOptimalOption_season_ties_continuous 10 _ r hfo ?_ ?_ ?_⟩
    · rw [e1, e2]
    · intro o ho
      simp only [optionsList, e4, e5, List.cons_append, List.nil_append,
        List.append_nil, List.mem_cons, List.not_mem_nil, or_false] at ho
      rcases ho with rfl | rfl | rfl
      · rw [e1, e3]; norm_num
      · rw [e1]
      · rw [e1, e2]
    · rw [e1, e3]; norm_num

end HSL
